import Mathlib

/-!
Verification of the virtual-memory / syscall-gate core of a teaching OS
kernel (supplementary page table, frame table with eviction, swap manager,
syscall boundary) against its natural-language specification.

The development is a shallow embedding of the C sources:
  * swap manager  (`swap_init`, `swap_write_page`, `swap_load_page`),
  * frame table   (`frame_alloc`, `frame_evict`),
  * syscall gate  (`ensure_valid_ptr`, `ensure_valid_range`, `unpin_ptr`,
                   `unpin_range`, `sys_read`, `sys_write`, `sys_mmap`,
                   `syscall_handler` dispatch).

Machine pointers and sizes are modelled as `Nat` with explicit `% 2^32`
where the C code performs wrap-around arithmetic.  C `while`/`for` loops
are modelled by structural recursion on an explicit iteration bound that
is always at least the number of iterations the C loop performs, so every
definition is executable and closed instances evaluate by `decide`/`rfl`.
Functions of the repository that are referenced but whose definitions are
not part of the sources (`vm/page.c`: `supp_pt_lookup`,
`supp_pt_force_load`, `supp_pt_grow_stack_if_necessary`,
`supp_pt_page_alloc_file`, `supp_pt_page_free`) are modelled from the
specification text and are marked `Modelled from the spec:` in their doc
comments.
-/

namespace Pintos

/-- `PGSIZE` from `threads/vaddr.h`: 4 KiB pages. -/
def PGSIZE : Nat := 4096

/-- `BLOCK_SECTOR_SIZE` from `devices/block.h`. -/
def BLOCK_SECTOR_SIZE : Nat := 512

/-- `sectors_per_page = PGSIZE / BLOCK_SECTOR_SIZE` (swap manager, vm/swap.c). -/
def sectors_per_page : Nat := PGSIZE / BLOCK_SECTOR_SIZE

/-- `PHYS_BASE = 0xC0000000`: user virtual addresses are below this. -/
def PHYS_BASE : Nat := 3221225472

/-- Modelled from the spec: `STACK_LIMIT`, the lowest address of the stack
region (the macro's definition is not among the sources; the spec fixes no
numeric value, so the conventional choice of 8 MiB below `PHYS_BASE` is
used; no theorem below depends on the exact value). -/
def STACK_LIMIT : Nat := 3212836864

/-- `2^32`; pointer and `size_t` arithmetic in the C sources wraps at this
modulus. -/
def UINT32_MOD : Nat := 4294967296

/-- `STDIN_FILENO = 0`. -/
def STDIN_FILENO : Nat := 0

/-- `STDOUT_FILENO = 1`. -/
def STDOUT_FILENO : Nat := 1

/-- `pg_round_down` from `threads/vaddr.h`: round an address down to its
page boundary. -/
def pg_round_down (p : Nat) : Nat := p - p % PGSIZE

/-- `pg_ofs` from `threads/vaddr.h`: offset of an address within its page. -/
def pg_ofs (p : Nat) : Nat := p % PGSIZE

/-- `is_user_vaddr` from `threads/vaddr.h`: an address is a user virtual
address iff it is below `PHYS_BASE`. -/
def is_user_vaddr (p : Nat) : Bool := p < PHYS_BASE

/-! ## Swap manager (vm/swap.c) -/

/-- The swap manager's state: `num_swap_slots` and the occupancy bitmap
`swap_slots` (`true` = in use).  The bitmap is created with
`num_swap_slots` bits, so in every reachable state
`slots.length = numSlots`. -/
structure SwapState where
  numSlots : Nat
  slots : List Bool
deriving DecidableEq

/-- `swap_init`: `num_swap_slots = block_size (swap_device) / sectors_per_page`
and all bits cleared (`bitmap_set_all (swap_slots, false)`). -/
def swap_init (blockSize : Nat) : SwapState :=
  { numSlots := blockSize / sectors_per_page
    slots := List.replicate (blockSize / sectors_per_page) false }

/-- `bitmap_scan_and_flip (b, 0, 1, false)` specialised as in
`swap_write_page`: index of the first clear bit, or `none` for
`BITMAP_ERROR`.  (The flip itself is performed by the caller's model.) -/
def bitmap_scan (l : List Bool) : Option Nat :=
  match l with
  | [] => none
  | b :: rest => if b = false then some 0 else (bitmap_scan rest).map (· + 1)

/-- The `(sector, buffer offset)` trace of the sector loop
`for (i = 0; i < sectors_per_page; i++) block_write/block_read (swap_device,
slot * sectors_per_page + i, page + i * BLOCK_SECTOR_SIZE)` shared by
`swap_write_page` and `swap_load_page`; `i` is the loop counter and the
second argument counts the remaining iterations. -/
def swap_sector_trace (slot : Nat) : Nat → Nat → List (Nat × Nat)
  | _, 0 => []
  | i, rem + 1 =>
    (slot * sectors_per_page + i, i * BLOCK_SECTOR_SIZE) ::
      swap_sector_trace slot (i + 1) rem

/-- `swap_write_page`: scan the bitmap for a free slot and flip it; `none`
models `PANIC ("swap is full")` when `bitmap_scan_and_flip` returns
`BITMAP_ERROR`; otherwise the chosen slot, the updated state and the trace
of `block_write` calls. -/
def swap_write_page (st : SwapState) : Option (Nat × SwapState × List (Nat × Nat)) :=
  match bitmap_scan st.slots with
  | none => none
  | some slot =>
    some (slot, { numSlots := st.numSlots, slots := st.slots.set slot true },
      swap_sector_trace slot 0 sectors_per_page)

/-- Outcome of `swap_load_page`: `retFalse` models `return false`;
`assertFail` models the failed `ASSERT (idx < b->bit_cnt)` inside
`bitmap_test` when the index is past the end of the bitmap; `okLoad`
carries the `block_read` trace and the state after the bit is cleared. -/
inductive SwapLoadResult where
  | retFalse
  | assertFail
  | okLoad (reads : List (Nat × Nat)) (st : SwapState)
deriving DecidableEq

/-- `bitmap_test (b, idx)`: `none` when `idx` is past the end of the bitmap
(the bitmap implementation asserts `idx < b->bit_cnt`). -/
def bitmap_test (l : List Bool) (idx : Nat) : Option Bool := l.get? idx

/-- `swap_load_page (slot_index, kpage)`, translated clause by clause:
`if (slot_index > num_swap_slots || !bitmap_test (swap_slots, slot_index))
return false;` then the sector read loop, then
`bitmap_set (swap_slots, slot_index, false)` and `return true`. -/
def swap_load_page (st : SwapState) (slot_index : Nat) : SwapLoadResult :=
  if st.numSlots < slot_index then .retFalse
  else
    match bitmap_test st.slots slot_index with
    | none => .assertFail
    | some false => .retFalse
    | some true =>
      .okLoad (swap_sector_trace slot_index 0 sectors_per_page)
        { numSlots := st.numSlots, slots := st.slots.set slot_index false }

/-! ## Frame table (vm/frame.c) -/

/-- Where a page's contents live; spec names for the values of the `loc`
field of `struct supp_pte` (the C enumeration constant `SWAP` used by
`frame_evict` is `InSwap` here). -/
inductive Loc where
  | NotPresent
  | InFrame
  | InSwap
  | InFile
deriving DecidableEq

/-- The fields of `struct supp_pte` (vm/page.h is not among the sources)
that the sources reference: `loc`, `swap_slot_index`, a file-backed source
(`file_ref` modelled as presence only), `writable` and `pinned`. -/
structure SuppPte where
  loc : Loc
  swap_slot_index : Nat
  fileBacked : Bool
  writable : Bool
  pinned : Bool
deriving DecidableEq

/-- `struct frame` from vm/frame.c: kernel page, user page, owning thread
(modelled by a `Nat` id) and the `pinned` flag. -/
structure Frame where
  kpage : Nat
  upage : Nat
  tid : Nat
  pinned : Bool
deriving DecidableEq

/-- The global state `frame_evict` operates on: the insertion-ordered frame
table `ftable`, the hardware accessed bits `pagedir_is_accessed` per
`(thread, upage)`, the hardware dirty bits per `(thread, upage)` (present
in the hardware model; `frame_evict` never reads them), the threads'
supplementary page tables `supp_pt` keyed by `(thread, upage)`, and the
swap manager state. -/
structure EvictState where
  ftable : List Frame
  accessed : Nat → Nat → Bool
  dirty : Nat → Nat → Bool
  spt : Nat → Nat → Option SuppPte
  swap : SwapState

/-- The victim-selection loop of `frame_evict`: take the front frame; if
its accessed bit is set, clear the bit and rotate the frame to the back,
else pop it as the victim (after `pagedir_clear_page`, which is outside
the modelled state).  The loop never reads any `pinned` flag, exactly as
in the source.  The `Nat` argument bounds the iterations (the C loop
performs at most `ftable.length + 1`); `none` also models `list_front` on
an empty table (an assertion failure). -/
def frame_evict_loop :
    (Nat → Nat → Bool) → List Frame → Nat →
    Option (Frame × List Frame × (Nat → Nat → Bool))
  | _, _, 0 => none
  | _, [], _ + 1 => none
  | acc, f :: rest, fuel + 1 =>
    if acc f.tid f.upage then
      frame_evict_loop
        (fun t u => if t = f.tid ∧ u = f.upage then false else acc t u)
        (rest ++ [f]) fuel
    else some (f, rest, acc)

/-- `frame_evict`: select a victim, look up its descriptor
(`supp_pte_lookup`), write the page to swap
(`pte->swap_slot_index = swap_write_page (kpage); pte->loc = SWAP;`) —
unconditionally, for every victim — and return the victim together with
the updated state and the trace of swap `block_write` calls.  `none`
covers the assertion/panic paths (empty table, missing descriptor, swap
full). -/
def frame_evict (st : EvictState) (fuel : Nat) :
    Option (Frame × EvictState × List (Nat × Nat)) :=
  match frame_evict_loop st.accessed st.ftable fuel with
  | none => none
  | some (victim, ft2, acc2) =>
    match st.spt victim.tid victim.upage with
    | none => none
    | some pte =>
      match swap_write_page st.swap with
      | none => none
      | some (slot, sw2, writes) =>
        some (victim,
          { ftable := ft2
            accessed := acc2
            dirty := st.dirty
            spt := fun t u =>
              if t = victim.tid ∧ u = victim.upage then
                some { pte with loc := .InSwap, swap_slot_index := slot }
              else st.spt t u
            swap := sw2 },
          writes)

/-- Outcome of `frame_alloc`: `returnedNull` is the literal
`return NULL; // error!` branch taken when `malloc` fails;
`panicked` covers the panic/assert paths inside `frame_evict` and the swap
manager; `okFrame` is a successful allocation. -/
inductive FrameAllocOutcome where
  | returnedNull
  | panicked
  | okFrame (kpage : Nat) (st : EvictState)

/-- `frame_alloc (upage)` for the thread `tid`:
`palloc_get_page (PAL_USER)` and `malloc` are oracles (`pallocResult`,
`mallocOk`).  If `palloc` succeeds but `malloc` fails the function returns
`NULL` to its caller; if `palloc` fails it evicts.  Either way the frame is
registered as `(kpage, upage, tid, pinned := false)` at the back of the
table. -/
def frame_alloc (st : EvictState) (upage tid : Nat)
    (pallocResult : Option Nat) (mallocOk : Bool) : FrameAllocOutcome :=
  match pallocResult with
  | some kpage =>
    if mallocOk then
      .okFrame kpage
        { st with ftable := st.ftable ++ [⟨kpage, upage, tid, false⟩] }
    else .returnedNull
  | none =>
    match frame_evict st (st.ftable.length + 2) with
    | none => .panicked
    | some (victim, st2, _) =>
      .okFrame victim.kpage
        { st2 with ftable := st2.ftable ++ [⟨victim.kpage, upage, tid, false⟩] }

/-! ## Syscall gate: pointer validation and pinning (userprog/syscall.c) -/

/-- The gate's view of one supplementary-page-table entry.  `loadOk`
abstracts the success of `supp_pt_force_load` on this page (the body of
`force_load` lives in vm/page.c, which is not among the sources; per the
spec it performs the demand load through the frame table and swap). -/
structure GatePte where
  loadOk : Bool
deriving DecidableEq

/-- The per-process state the validators operate on: the supplementary page
table (`pages`, keyed by page-aligned address) and the `pinned` flag of
each descriptor (kept as a separate map keyed by the same addresses; the C
code stores it inside `struct supp_pte`). -/
structure SysState where
  pages : Nat → Option GatePte
  pinned : Nat → Bool

/-- Modelled from the spec: `supp_pt_grow_stack_if_necessary (supp_pt, esp,
fault_page)` (vm/page.c is not among the sources).  Per the spec: success
without change if the page is already mapped; if the page is within the
stack region above `STACK_LIMIT` and at or above `esp - 32` (or at/above
`esp`), install a zero-backed writable descriptor and succeed; otherwise
fail. -/
def supp_pt_grow_stack_if_necessary (st : SysState) (esp fault_page : Nat) :
    Bool × SysState :=
  if (st.pages fault_page).isSome then (true, st)
  else if STACK_LIMIT < fault_page ∧ fault_page < PHYS_BASE ∧
      (esp ≤ fault_page + 32 ∨ esp ≤ fault_page) then
    (true,
      { st with pages := fun u =>
          if u = fault_page then some ⟨true⟩ else st.pages u })
  else (false, st)

/-- `ensure_valid_ptr (ptr, f)`: reject `NULL` and non-user addresses; try
to grow the stack toward `pg_round_down (ptr)`; look the page up in the
supplementary page table; set `supp_pte->pinned = true` and return the
result of `supp_pt_force_load`.  Note that on a failed `force_load` the
page stays pinned, exactly as in the source. -/
def ensure_valid_ptr (st : SysState) (ptr esp : Nat) : Bool × SysState :=
  if ptr = 0 ∨ ¬ ptr < PHYS_BASE then (false, st)
  else
    match supp_pt_grow_stack_if_necessary st esp (pg_round_down ptr) with
    | (false, st1) => (false, st1)
    | (true, st1) =>
      match st1.pages (pg_round_down ptr) with
      | none => (false, st1)
      | some pte =>
        (pte.loadOk,
          { st1 with pinned := fun u =>
              if u = pg_round_down ptr then true else st1.pinned u })

/-- `unpin_ptr (ptr)`: look the page up; on success clear its pinned flag. -/
def unpin_ptr (st : SysState) (ptr : Nat) : Bool × SysState :=
  match st.pages (pg_round_down ptr) with
  | none => (false, st)
  | some _ =>
    (true,
      { st with pinned := fun u =>
          if u = pg_round_down ptr then false else st.pinned u })

/-- The `while (curr_page < ptr + len)` loop of `unpin_range`; `curr` is
`curr_page`, `stop` is `(uint8_t *) ptr + len` (already reduced modulo
`2^32` by the caller), and the last argument bounds the iterations. -/
def unpin_range_loop (stop : Nat) : SysState → Nat → Nat → Bool × SysState
  | st, _, 0 => (true, st)
  | st, curr, fuel + 1 =>
    if curr < stop then
      match unpin_ptr st curr with
      | (false, st1) => (false, st1)
      | (true, st1) => unpin_range_loop stop st1 (curr + PGSIZE) fuel
    else (true, st)

/-- `unpin_range (ptr, len)`: `len = 0` returns immediately; otherwise
walk the pages from `pg_round_down (ptr)` while below `ptr + len`
(pointer arithmetic wraps at `2^32`). -/
def unpin_range (st : SysState) (ptr len : Nat) : Bool × SysState :=
  if len = 0 then (true, st)
  else unpin_range_loop ((ptr + len) % UINT32_MOD) st (pg_round_down ptr) (len + 3)

/-- The `while (curr_page < ptr + len)` loop of `ensure_valid_range`;
`pos` counts the pages already validated, and on failure the source calls
`unpin_range (ptr, pos)` — passing the page count `pos` where
`unpin_range` expects a byte length. -/
def ensure_valid_range_loop (ptr len esp : Nat) :
    SysState → Nat → Nat → Nat → Bool × SysState
  | st, _, _, 0 => (true, st)
  | st, curr, pos, fuel + 1 =>
    if curr < (ptr + len) % UINT32_MOD then
      match ensure_valid_ptr st curr esp with
      | (false, st1) => (false, (unpin_range st1 ptr pos).2)
      | (true, st1) =>
        ensure_valid_range_loop ptr len esp st1 (curr + PGSIZE) (pos + 1) fuel
    else (true, st)

/-- `ensure_valid_range (ptr, len, f)`: validate (and pin) every page
intersecting `[ptr, ptr + len)`, starting at `pg_round_down (ptr)`. -/
def ensure_valid_range (st : SysState) (ptr len esp : Nat) : Bool × SysState :=
  ensure_valid_range_loop ptr len esp st (pg_round_down ptr) 0 (len + 3)

/-! ## Syscall gate: `sys_read`, `sys_write`, dispatch (userprog/syscall.c) -/

/-- An open file as the read/write loops observe it: its length and the
current position of the reopened descriptor. -/
structure File where
  size : Nat
  pos : Nat
deriving DecidableEq

/-- Observable actions of a syscall body, in program order. -/
inductive Event where
  | lockAcquire
  | lockRelease
  | fileRead (n : Nat)
  | fileWrite (n : Nat)
  | inputGetc
  | putbuf (n : Nat)
deriving DecidableEq

/-- Result of a modelled syscall body: the process exits with a status, or
the handler returns with `f->eax` set; both carry the final gate state and
the event trace. -/
inductive SysOutcome where
  | exited (status : Int) (st : SysState) (events : List Event)
  | returned (eax : Nat) (st : SysState) (events : List Event)

/-- `file_read (file, buf, n)` / `file_write (file, buf, n)` as the
filesystem contract provides them: transfer `min n (size - pos)` bytes and
advance the position. -/
def file_io (f : File) (n : Nat) : Nat × File :=
  (min n (f.size - f.pos), { f with pos := f.pos + min n (f.size - f.pos) })

/-- The transfer loop shared by `sys_read` and `sys_write`:
`while (done < length) { tmp = file_read/file_write (...); if (tmp == 0)
break; done += tmp; }`.  Returns the total, the final file and the list of
per-call transfer counts; the last argument bounds the iterations. -/
def file_io_loop : File → Nat → Nat → Nat → Nat × File × List Nat
  | f, _, done, 0 => (done, f, [])
  | f, len, done, fuel + 1 =>
    if done < len then
      match file_io f (len - done) with
      | (0, f1) => (done, f1, [0])
      | (tmp + 1, f1) =>
        match file_io_loop f1 len (done + (tmp + 1)) fuel with
        | (total, f2, calls) => (total, f2, (tmp + 1) :: calls)
    else (done, f, [])

/-- The `for (i = 0; i < length; i++) buffer[i] = input_getc ();` loop of
`sys_read`'s `STDIN` branch, as its event trace. -/
def stdin_events : Nat → List Event
  | 0 => []
  | n + 1 => .inputGetc :: stdin_events n

/-- `sys_read (f, fd, buffer, length)`:
reject `fd == STDOUT_FILENO`; validate and pin the buffer range; `STDIN`
drains `length` keystrokes; otherwise take the filesystem lock, fetch the
file from the fd table (`none` exits `-1` after unpinning, releasing the
lock), loop `file_read` until `length` bytes or a zero-byte read, release
the lock, set `f->eax` to the bytes read; finally unpin the range. -/
def sys_read (st : SysState) (fdt : Nat → Option File)
    (fd buffer len esp : Nat) : SysOutcome :=
  if fd = STDOUT_FILENO then .exited (-1) st []
  else
    match ensure_valid_range st buffer len esp with
    | (false, st1) => .exited (-1) st1 []
    | (true, st1) =>
      if fd = STDIN_FILENO then
        .returned len (unpin_range st1 buffer len).2 (stdin_events len)
      else
        match fdt fd with
        | none =>
          .exited (-1) (unpin_range st1 buffer len).2
            [.lockAcquire, .lockRelease]
        | some file =>
          match file_io_loop file len 0 (len + 1) with
          | (total, _, calls) =>
            .returned total (unpin_range st1 buffer len).2
              ([.lockAcquire] ++ calls.map Event.fileRead ++ [.lockRelease])

/-- `sys_write (f, fd, buffer, length)`: validate and pin the buffer range;
`STDOUT` writes the whole buffer with `putbuf` and returns `length`;
otherwise symmetric to `sys_read` with `file_write`; finally unpin. -/
def sys_write (st : SysState) (fdt : Nat → Option File)
    (fd buffer len esp : Nat) : SysOutcome :=
  match ensure_valid_range st buffer len esp with
  | (false, st1) => .exited (-1) st1 []
  | (true, st1) =>
    if fd = STDOUT_FILENO then
      .returned len (unpin_range st1 buffer len).2 [.putbuf len]
    else
      match fdt fd with
      | none =>
        .exited (-1) (unpin_range st1 buffer len).2
          [.lockAcquire, .lockRelease]
      | some file =>
        match file_io_loop file len 0 (len + 1) with
        | (total, _, calls) =>
          .returned total (unpin_range st1 buffer len).2
            ([.lockAcquire] ++ calls.map Event.fileWrite ++ [.lockRelease])

/-- The fixed table `syscall_arg_num[] = {0,1,1,1,2,1,1,1,3,3,2,1,1,2,1,1,
1,2,1,1}` of argument counts, indexed by syscall number 0..19
(`SYS_HALT` .. `SYS_INUMBER`). -/
def syscall_arg_num : List Nat :=
  [0, 1, 1, 1, 2, 1, 1, 1, 3, 3, 2, 1, 1, 2, 1, 1, 1, 2, 1, 1]

/-- Outcome of the syscall handler skeleton: the process exits with a
status, the dispatched body runs (abstracted), or the handler performs an
out-of-bounds read of `syscall_arg_num` — undefined behavior, with no
defined result. -/
inductive HandlerOutcome where
  | exited (status : Int)
  | dispatched
  | undefinedRead
deriving DecidableEq

/-- The argument-extraction loop of `syscall_handler`: word `i` of the user
stack is validated with `ensure_valid_range`; `argOk i` abstracts that
check's success.  Any failure exits with status `-1`. -/
def arg_fetch_ok (argOk : Nat → Bool) : Nat → Nat → Bool
  | _, 0 => true
  | i, n + 1 => if argOk i then arg_fetch_ok argOk (i + 1) n else false

/-- The control skeleton of `syscall_handler`: validate the syscall-number
word (`argOk 0`); read `arg_num = syscall_arg_num[syscall_num]` — an
out-of-bounds read when the user-supplied number is ≥ 20; validate and
read the argument words; dispatch: numbers 0..14 reach their handlers
(`SYS_HALT` .. `SYS_MUNMAP`), every other in-table number
(`SYS_CHDIR` .. `SYS_INUMBER` and the `default` label) runs
`exit_on (true)`, i.e. exits with status `-1`. -/
def syscall_handler (argOk : Nat → Bool) (n : Nat) : HandlerOutcome :=
  if argOk 0 then
    match syscall_arg_num.get? n with
    | none => .undefinedRead
    | some argn =>
      if arg_fetch_ok argOk 1 argn then
        if n ≤ 14 then .dispatched else .exited (-1)
      else .exited (-1)
  else .exited (-1)

/-! ## `sys_mmap` (userprog/syscall.c) -/

/-- The descriptor `sys_mmap` installs for one page of a mapping: file
offset, `file_bytes`, `mapping_id` and `writable` (all descriptors of a
mapping share the reopened file, which is therefore not tracked per
descriptor). -/
structure MDesc where
  file_offset : Nat
  file_bytes : Nat
  mapping_id : Nat
  writable : Bool
deriving DecidableEq

/-- A supplementary page table as `sys_mmap` sees it: page-aligned user
address to installed descriptor. -/
def SPT : Type := Nat → Option MDesc

/-- Modelled from the spec: `supp_pt_page_alloc_file (supp_pt, upage, file,
offset, bytes, mapping_id, writable)` (vm/page.c is not among the
sources): install a not-yet-loaded file-backed descriptor; fails iff the
key is already present. -/
def supp_pt_page_alloc_file (spt : SPT) (upage ofs bytes mapid : Nat)
    (writable : Bool) : Option SPT :=
  match spt upage with
  | some _ => none
  | none =>
    some (fun u => if u = upage then some ⟨ofs, bytes, mapid, writable⟩ else spt u)

/-- Modelled from the spec: `supp_pt_page_free (supp_pt, upage)` (vm/page.c
is not among the sources): destroy the descriptor.  The pages freed by
`sys_mmap`'s rollback are lazily loaded and not yet resident, so no frame
or swap slot is involved. -/
def supp_pt_page_free (spt : SPT) (upage : Nat) : SPT :=
  fun u => if u = upage then none else spt u

/-- Point update of a supplementary page table: the function
`supp_pt_page_alloc_file` installs (named for use in proofs). -/
def spt_insert (spt : SPT) (key2 : Nat) (d : MDesc) : SPT :=
  fun u => if u = key2 then some d else spt u

/-- `pg_range_num (length)`: number of pages covering `length` bytes,
`((length - 1) / PGSIZE) + 1` (the formula the repository's other
`sys_mmap` revision spells out inline). -/
def pg_range_num (length : Nat) : Nat := (length - 1) / PGSIZE + 1

/-- Result of `sys_mmap`: `MAP_FAILED` together with the final
supplementary page table and whether the reopened file was closed on the
way out, or success with the mapping id (`= addr`) and the new table. -/
inductive MmapResult where
  | failed (spt : SPT) (closedFile : Bool)
  | okMap (mapid : Nat) (spt : SPT)

/-- `true` iff the result is `MAP_FAILED`. -/
def MmapResult.isFailed : MmapResult → Bool
  | .failed _ _ => true
  | .okMap _ _ => false

/-- The rollback loop of `sys_mmap`'s failure branch:
`while (i > 0) { curr_page -= PGSIZE; supp_pt_page_free (...); i--; }`
(pointer arithmetic wraps at `2^32`). -/
def mmap_rollback (spt : SPT) (curr_page : Nat) : Nat → SPT
  | 0 => spt
  | i + 1 =>
    mmap_rollback (supp_pt_page_free spt ((curr_page + UINT32_MOD - PGSIZE) % UINT32_MOD))
      ((curr_page + UINT32_MOD - PGSIZE) % UINT32_MOD) i

/-- The install loop of `sys_mmap`:
`for (i = 0; i < num_pages; i++) { bytes = length > PGSIZE ? PGSIZE :
length; alloc; length -= bytes; curr_page += PGSIZE; }`, with the rollback
run inside the failure branch.  `lengthRem` is the mutated `length`, the
final argument counts the remaining iterations (`num_pages - i`), and
`curr_page` wraps at `2^32`. -/
def sys_mmap_loop (spt : SPT) (mapid : Nat) :
    Nat → Nat → Nat → Nat → Except SPT SPT
  | _, _, _, 0 => .ok spt
  | curr_page, lengthRem, i, rem + 1 =>
    match supp_pt_page_alloc_file spt curr_page (i * PGSIZE)
        (if PGSIZE < lengthRem then PGSIZE else lengthRem) mapid true with
    | none => .error (mmap_rollback spt curr_page i)
    | some spt2 =>
      sys_mmap_loop spt2 mapid ((curr_page + PGSIZE) % UINT32_MOD)
        (lengthRem - (if PGSIZE < lengthRem then PGSIZE else lengthRem))
        (i + 1) rem

/-- `sys_mmap (f, fd, addr)`: `fd_file` is `fd_table_get_file (fd)`
together with `file_length` of that file (a non-negative C `int`;
`length <= 0` is `length = 0` here); `reopenOk` abstracts the success of
`file_reopen`.  The preconditions are checked in source order; the
`STACK_LIMIT` comparison is the 32-bit computation
`(uintptr_t) addr + num_pages * PGSIZE > (uintptr_t) STACK_LIMIT`.  On any
per-page allocation failure the pages installed so far are freed, the
reopened file is closed and `MAP_FAILED` is returned. -/
def sys_mmap (fd_file : Option Nat) (reopenOk : Bool) (spt : SPT)
    (addr : Nat) : MmapResult :=
  match fd_file with
  | none => .failed spt false
  | some length =>
    if length = 0 then .failed spt false
    else if addr = 0 ∨ addr % PGSIZE ≠ 0 ∨ PHYS_BASE ≤ addr then .failed spt false
    else if STACK_LIMIT < (addr + pg_range_num length * PGSIZE) % UINT32_MOD then
      .failed spt false
    else if reopenOk = false then .failed spt false
    else
      match sys_mmap_loop spt addr addr length 0 (pg_range_num length) with
      | .error sptR => .failed sptR true
      | .ok sptF => .okMap addr sptF

/-! ### The specification-side description of `sys_mmap` (claim wording) -/

/-- The user address of page `j` of a mapping starting at `addr`
(32-bit pointer arithmetic). -/
def mmap_key (addr j : Nat) : Nat := (addr + j * PGSIZE) % UINT32_MOD

/-- `file_bytes` of page `j` per the claim: the file-length remainder on
the last page, `PGSIZE` on every other page. -/
def mmap_page_bytes (length j : Nat) : Nat :=
  if j + 1 = pg_range_num length then length - (pg_range_num length - 1) * PGSIZE
  else PGSIZE

/-- `true` iff one of the first `cnt` target pages of the mapping is
already present in the table. -/
def mmap_any_present (spt : SPT) (addr : Nat) : Nat → Bool
  | 0 => false
  | c + 1 => mmap_any_present spt addr c || (spt (mmap_key addr c)).isSome

/-- Least `j` (starting the search at the given index, for the given
number of candidates) with `mmap_key addr j = u`. -/
def mmap_find_index (addr u : Nat) : Nat → Nat → Option Nat
  | _, 0 => none
  | j, rem + 1 =>
    if mmap_key addr j = u then some j else mmap_find_index addr u (j + 1) rem

/-- The claim's description of `sys_mmap`, written from its wording:
`MAP_FAILED` (table unchanged, nothing closed) whenever a precondition
fails — no open file, `file_length ≤ 0`, `addr = 0`, `addr` not
page-aligned, `addr` not in user space, or `addr` plus the page-rounded
length (in the source's 32-bit arithmetic) exceeding `STACK_LIMIT` — or
when the reopen fails; `MAP_FAILED` with the reopened file closed and the
table unchanged when some target page is already mapped; otherwise success
with mapping id `addr` and one file-backed descriptor per page, page `j`
at file offset `j * PGSIZE`, with the last page's `file_bytes` equal to
the file-length remainder. -/
def sys_mmap_spec (fd_file : Option Nat) (reopenOk : Bool) (spt : SPT)
    (addr : Nat) : MmapResult :=
  match fd_file with
  | none => .failed spt false
  | some length =>
    if length = 0 ∨ addr = 0 ∨ addr % PGSIZE ≠ 0 ∨ PHYS_BASE ≤ addr ∨
        STACK_LIMIT < (addr + pg_range_num length * PGSIZE) % UINT32_MOD ∨
        reopenOk = false then
      .failed spt false
    else if mmap_any_present spt addr (pg_range_num length) then
      .failed spt true
    else
      .okMap addr (fun u =>
        match mmap_find_index addr u 0 (pg_range_num length) with
        | some j => some ⟨j * PGSIZE, mmap_page_bytes length j, addr, true⟩
        | none => spt u)

/-! ## Concrete states used by the evaluation theorems -/

/-- A frame table holding exactly one frame whose page is pinned — both in
the frame entry and in its page descriptor — and whose hardware accessed
bit is clear. -/
def pinned_frame_state : EvictState :=
  { ftable := [⟨20480, 8192, 1, true⟩]
    accessed := fun _ _ => false
    dirty := fun _ _ => false
    spt := fun t u =>
      if t = 1 ∧ u = 8192 then some ⟨.InFrame, 0, true, true, true⟩ else none
    swap := ⟨4, [false, false, false, false]⟩ }

/-- A frame table holding exactly one unpinned frame backing a resident,
file-backed, writable page whose hardware dirty bit is clear. -/
def file_backed_clean_state : EvictState :=
  { ftable := [⟨20480, 8192, 1, false⟩]
    accessed := fun _ _ => false
    dirty := fun _ _ => false
    spt := fun t u =>
      if t = 1 ∧ u = 8192 then some ⟨.InFrame, 0, true, true, false⟩ else none
    swap := ⟨4, [false, false, false, false]⟩ }

/-- A supplementary page table mapping exactly the two pages `0x1000` and
`0x2000` (both loadable), with nothing pinned. -/
def two_pages_state : SysState :=
  { pages := fun u => if u = 4096 ∨ u = 8192 then some ⟨true⟩ else none
    pinned := fun _ => false }

/-! ## Theorems -/

/-- Claim C1: the spec requires that a frame whose page is pinned is never
selected as the eviction victim.  The code's victim-selection loop in
`frame_evict` consults only the hardware accessed bit and never reads any
`pinned` flag: in a frame table whose only entry is pinned (frame entry
and page descriptor alike) and has a clear accessed bit, eviction selects
exactly that pinned frame and moves its descriptor to swap. -/
theorem c1_eviction_selects_pinned_frame :
    (frame_evict pinned_frame_state 3).map Prod.fst = some ⟨20480, 8192, 1, true⟩
    ∧ ((frame_evict pinned_frame_state 3).map Prod.fst).map Frame.pinned = some true
    ∧ (pinned_frame_state.spt 1 8192).map SuppPte.pinned = some true
    ∧ (frame_evict pinned_frame_state 3).map
        (fun r => (r.2.1.spt 1 8192).map SuppPte.loc) = some (some .InSwap) := by
  refine ⟨by decide, by decide, by decide, by decide⟩

/-- Claim C2: the spec requires a clean file-backed eviction victim to
transition to `InFile` with no I/O, and only non-file-backed victims to be
written to swap.  `frame_evict` instead writes every victim to a freshly
allocated swap slot and sets its descriptor to `InSwap`: evicting a clean
(`dirty = false`) file-backed page performs `sectors_per_page = 8` swap
`block_write`s and leaves the descriptor `InSwap`, not `InFile`. -/
theorem c2_file_backed_victim_sent_to_swap :
    (file_backed_clean_state.spt 1 8192).map SuppPte.fileBacked = some true
    ∧ file_backed_clean_state.dirty 1 8192 = false
    ∧ (frame_evict file_backed_clean_state 3).map
        (fun r => (r.2.1.spt 1 8192).map SuppPte.loc) = some (some .InSwap)
    ∧ (frame_evict file_backed_clean_state 3).map (fun r => r.2.2.length) = some 8 := by
  refine ⟨by decide, by decide, by decide, by decide⟩

/-- Claim C3: the spec requires that when validation fails, every page
pinned so far during the call is unpinned before the process exits.  In
`ensure_valid_range` the failure path calls `unpin_range (ptr, pos)` where
`pos` counts validated *pages* but `unpin_range` expects a *byte* length:
validating `[0x1000, 0x4000)` over a table that maps `0x1000` and `0x2000`
but not `0x3000` fails, and `unpin_range (0x1000, 2)` unpins only page
`0x1000` — page `0x2000` is left pinned. -/
theorem c3_failed_validation_leaves_page_pinned :
    (ensure_valid_range two_pages_state 4096 12288 3221225000).1 = false
    ∧ (ensure_valid_range two_pages_state 4096 12288 3221225000).2.pinned 8192 = true
    ∧ (ensure_valid_range two_pages_state 4096 12288 3221225000).2.pinned 4096 = false := by
  refine ⟨by decide, by decide, by decide⟩

/-- Claim C5: the spec requires `swap_load_page (slot, kpage)` to return
`false` whenever the slot index is out of range.  The code's bound check
is `slot_index > num_swap_slots` where `>=` was needed: for a swap with
one slot (valid index 0 only), index 1 passes the check and reaches
`bitmap_test (swap_slots, 1)`, whose `ASSERT (idx < b->bit_cnt)` fails —
the call does not return `false`. -/
theorem c5_swap_load_out_of_range_hits_bitmap_assert :
    swap_load_page ⟨1, [true]⟩ 1 = .assertFail
    ∧ swap_load_page ⟨1, [true]⟩ 1 ≠ .retFalse
    ∧ swap_load_page ⟨1, [true]⟩ 2 = .retFalse := by
  refine ⟨by decide, by decide, by decide⟩

/-- Claim C6: the spec declares `frame_alloc` infallible from the caller's
perspective, panicking on catastrophic failure.  The code instead executes
`return NULL; // error!` when `palloc_get_page` succeeds but `malloc` of
the frame metadata fails, handing `NULL` to the caller rather than
panicking. -/
theorem c6_frame_alloc_returns_null_on_malloc_failure :
    frame_alloc
      { ftable := []
        accessed := fun _ _ => false
        dirty := fun _ _ => false
        spt := fun _ _ => none
        swap := ⟨0, []⟩ } 8192 1 (some 20480) false = .returnedNull := rfl

/-- Claim C9: the spec requires every unimplemented syscall id to
terminate the process with status `-1`.  Ids 15–19 (`SYS_CHDIR` ..
`SYS_INUMBER`) indeed reach `exit_on (true)`, but for any id ≥ 20 the
handler first evaluates `syscall_arg_num[syscall_num]`, reading past the
end of the 20-entry table — undefined behavior instead of the required
exit. -/
theorem c9_syscall_number_20_reads_table_out_of_bounds :
    syscall_handler (fun _ => true) 20 = .undefinedRead
    ∧ syscall_handler (fun _ => true) 20 ≠ .exited (-1)
    ∧ syscall_handler (fun _ => true) 15 = .exited (-1)
    ∧ syscall_handler (fun _ => true) 19 = .exited (-1)
    ∧ syscall_handler (fun _ => true) 8 = .dispatched := by
  refine ⟨by decide, by decide, by decide, by decide, by decide⟩

theorem bitmap_scan_eq_none {l : List Bool} :
    bitmap_scan l = none ↔ ∀ b ∈ l, b = true := by
  induction l with
  | nil => simp [bitmap_scan]
  | cons b rest ih =>
    cases b with
    | false => simp [bitmap_scan]
    | true => simp [bitmap_scan, ih]

theorem bitmap_scan_eq_some {l : List Bool} {j : Nat}
    (h : bitmap_scan l = some j) :
    l.get? j = some false ∧ ∀ k, k < j → l.get? k = some true := by
  induction l generalizing j with
  | nil => simp [bitmap_scan] at h
  | cons b rest ih =>
    cases b with
    | false =>
      simp [bitmap_scan] at h
      subst h
      simp
    | true =>
      simp [bitmap_scan] at h
      obtain ⟨j2, hj2, rfl⟩ := h
      obtain ⟨h1, h2⟩ := ih hj2
      refine ⟨by simpa using h1, ?_⟩
      intro k hk
      cases k with
      | zero => simp
      | succ k2 => simpa using h2 k2 (by omega)

theorem swap_sector_trace_length (s : Nat) :
    ∀ rem i, (swap_sector_trace s i rem).length = rem
  | 0, _ => rfl
  | rem + 1, i => by
    simp [swap_sector_trace, swap_sector_trace_length s rem (i + 1)]

theorem swap_sector_trace_get (s : Nat) :
    ∀ rem i k, k < rem →
      (swap_sector_trace s i rem).get? k =
        some (s * sectors_per_page + (i + k), (i + k) * BLOCK_SECTOR_SIZE)
  | 0, _, k, h => absurd h (Nat.not_lt_zero k)
  | _ + 1, _, 0, _ => by simp [swap_sector_trace]
  | rem + 1, i, k + 1, h => by
    have h2 := swap_sector_trace_get s rem (i + 1) k (by omega)
    rw [show i + (k + 1) = (i + 1) + k by omega]
    simpa [swap_sector_trace] using h2

/-- Claim C8: `swap_init` fixes the slot count to
`block_size (swap_device) / sectors_per_page` with every slot free, and
`swap_write_page` picks the first free slot (every earlier slot is in
use), flips its bit, writes `sectors_per_page` consecutive sectors
starting at sector `slot * sectors_per_page` (sector `k` of the trace from
buffer offset `k * BLOCK_SECTOR_SIZE`), returns that slot, and panics
exactly when no slot is free. -/
theorem c8_swap_write_page_behavior (bs : Nat) (st : SwapState) (j : Nat)
    (st2 : SwapState) (tr : List (Nat × Nat))
    (h : swap_write_page st = some (j, st2, tr)) :
    (swap_init bs).numSlots = bs / sectors_per_page
    ∧ (swap_init bs).slots = List.replicate (bs / sectors_per_page) false
    ∧ st.slots.get? j = some false
    ∧ (∀ k, k < j → st.slots.get? k = some true)
    ∧ st2.numSlots = st.numSlots
    ∧ st2.slots = st.slots.set j true
    ∧ tr.length = sectors_per_page
    ∧ (∀ k, k < sectors_per_page →
        tr.get? k = some (j * sectors_per_page + k, k * BLOCK_SECTOR_SIZE))
    ∧ (∀ st3 : SwapState, swap_write_page st3 = none ↔ ∀ b ∈ st3.slots, b = true) := by
  cases hscan : bitmap_scan st.slots with
  | none => simp [swap_write_page, hscan] at h
  | some s =>
    simp only [swap_write_page, hscan, Option.some.injEq, Prod.mk.injEq] at h
    obtain ⟨rfl, rfl, rfl⟩ := h
    obtain ⟨hget, hlt⟩ := bitmap_scan_eq_some hscan
    refine ⟨rfl, rfl, hget, hlt, rfl, rfl, swap_sector_trace_length s sectors_per_page 0, ?_, ?_⟩
    · intro k hk
      simpa using swap_sector_trace_get s sectors_per_page 0 k hk
    · intro st3
      cases hscan3 : bitmap_scan st3.slots with
      | none =>
        simp only [swap_write_page, hscan3]
        exact ⟨fun _ => bitmap_scan_eq_none.mp hscan3, fun _ => trivial⟩
      | some s3 =>
        simp only [swap_write_page, hscan3]
        constructor
        · intro hfalse
          exact absurd hfalse (by simp)
        · intro hall
          exact absurd hscan3 (by simp [bitmap_scan_eq_none.mpr hall])

theorem c8_swap_write_page_behavior_witness :
    swap_write_page ⟨2, [true, false]⟩ =
      some (1, ⟨2, [true, true]⟩,
        [(8, 0), (9, 512), (10, 1024), (11, 1536), (12, 2048), (13, 2560),
         (14, 3072), (15, 3584)])
    ∧ (swap_init 16).numSlots = 2
    ∧ ([true, false] : List Bool).get? 1 = some false := by
  have h : swap_write_page ⟨2, [true, false]⟩ =
      some (1, ⟨2, [true, true]⟩,
        [(8, 0), (9, 512), (10, 1024), (11, 1536), (12, 2048), (13, 2560),
         (14, 3072), (15, 3584)]) := by decide
  have h2 := c8_swap_write_page_behavior 16 ⟨2, [true, false]⟩ 1 ⟨2, [true, true]⟩ _ h
  exact ⟨h, h2.1, h2.2.2.1⟩

theorem file_io_loop_total (fuel : Nat) :
    ∀ f len done, len - done < fuel →
      (file_io_loop f len done fuel).1 = done + min (len - done) (f.size - f.pos) := by
  induction fuel with
  | zero => intro f len done h; omega
  | succ fuel ih =>
    intro f len done h
    by_cases hd : done < len
    · cases hm : min (len - done) (f.size - f.pos) with
      | zero =>
        simp [file_io_loop, hd, file_io, hm]
      | succ tmp =>
        have ihr := ih { f with pos := f.pos + (tmp + 1) } len (done + (tmp + 1)) (by omega)
        simp only [file_io_loop, hd, if_true, file_io, hm] at ihr ⊢
        simp only [ihr]
        omega
    · simp [file_io_loop, hd]
      omega

/-- Claim C7: `sys_read (fd, buf, len)` exits the process with status `-1`
for `fd = STDOUT_FILENO`; for `fd = STDIN_FILENO` it performs `len`
keystroke reads into the buffer and returns `len`; for any other fd with
an open file it takes the filesystem lock, loops `file_read` until `len`
bytes are read or a read transfers zero bytes, releases the lock, and
returns the total transferred, which under the filesystem contract is
`min len (file.size - file.pos)`. -/
theorem c7_sys_read_behavior (st : SysState) (fdt : Nat → Option File)
    (fd buffer len esp : Nat) (file : File)
    (h0 : fd ≠ STDIN_FILENO) (h1 : fd ≠ STDOUT_FILENO)
    (h2 : fdt fd = some file)
    (h3 : (ensure_valid_range st buffer len esp).1 = true) :
    sys_read st fdt STDOUT_FILENO buffer len esp = .exited (-1) st []
    ∧ (∃ st2, sys_read st fdt STDIN_FILENO buffer len esp =
        .returned len st2 (stdin_events len))
    ∧ (∃ (st2 : SysState) (calls : List Nat), sys_read st fdt fd buffer len esp =
        .returned (min len (file.size - file.pos)) st2
          ([.lockAcquire] ++ calls.map Event.fileRead ++ [.lockRelease])) := by
  rcases hevr : ensure_valid_range st buffer len esp with ⟨b, st1⟩
  rw [hevr] at h3
  simp only at h3
  subst h3
  refine ⟨by simp [sys_read, STDOUT_FILENO], ?_, ?_⟩
  · exact ⟨(unpin_range st1 buffer len).2,
      by simp [sys_read, hevr, STDIN_FILENO, STDOUT_FILENO]⟩
  · rcases hio : file_io_loop file len 0 (len + 1) with ⟨total, f2, calls⟩
    have htot : total = min len (file.size - file.pos) := by
      have h4 := file_io_loop_total (len + 1) file len 0 (by omega)
      rw [hio] at h4
      simpa using h4
    refine ⟨(unpin_range st1 buffer len).2, calls, ?_⟩
    simp [sys_read, hevr, h0, h1, h2, hio, htot]

theorem c7_sys_read_behavior_witness :
    ((fun _ => some (⟨100, 20⟩ : File)) : Nat → Option File) 3 = some ⟨100, 20⟩
    ∧ (ensure_valid_range
        ⟨fun u => if u = 4096 then some ⟨true⟩ else none, fun _ => false⟩
        4096 10 3221225000).1 = true
    ∧ (sys_read ⟨fun u => if u = 4096 then some ⟨true⟩ else none, fun _ => false⟩
          (fun _ => some ⟨100, 20⟩) STDOUT_FILENO 4096 10 3221225000 =
        .exited (-1) ⟨fun u => if u = 4096 then some ⟨true⟩ else none, fun _ => false⟩ []
      ∧ (∃ st2, sys_read ⟨fun u => if u = 4096 then some ⟨true⟩ else none, fun _ => false⟩
            (fun _ => some ⟨100, 20⟩) STDIN_FILENO 4096 10 3221225000 =
          .returned 10 st2 (stdin_events 10))
      ∧ (∃ (st2 : SysState) (calls : List Nat), sys_read ⟨fun u => if u = 4096 then some ⟨true⟩ else none, fun _ => false⟩
            (fun _ => some ⟨100, 20⟩) 3 4096 10 3221225000 =
          .returned (min 10 ((⟨100, 20⟩ : File).size - (⟨100, 20⟩ : File).pos)) st2
            ([.lockAcquire] ++ calls.map Event.fileRead ++ [.lockRelease]))) :=
  ⟨rfl, by decide,
    c7_sys_read_behavior
      ⟨fun u => if u = 4096 then some ⟨true⟩ else none, fun _ => false⟩
      (fun _ => some ⟨100, 20⟩) 3 4096 10 3221225000 ⟨100, 20⟩
      (by decide) (by decide) rfl (by decide)⟩

theorem pg_round_down_of_aligned (p : Nat) (h : p % PGSIZE = 0) :
    pg_round_down p = p := by
  unfold pg_round_down
  omega

theorem pg_round_down_aligned (q : Nat) : pg_round_down q % PGSIZE = 0 := by
  have h := Nat.div_add_mod q PGSIZE
  have h2 : pg_round_down q = PGSIZE * (q / PGSIZE) := by
    unfold pg_round_down
    omega
  rw [h2, Nat.mul_mod_right]

theorem evr_loop_succ (ptr len esp : Nat) (st : SysState) (curr pos fuel : Nat) :
    ensure_valid_range_loop ptr len esp st curr pos (fuel + 1) =
      if curr < (ptr + len) % UINT32_MOD then
        match ensure_valid_ptr st curr esp with
        | (false, st1) => (false, (unpin_range st1 ptr pos).2)
        | (true, st1) =>
          ensure_valid_range_loop ptr len esp st1 (curr + PGSIZE) (pos + 1) fuel
      else (true, st) := rfl

theorem evr_len_zero_aligned (st : SysState) (p esp : Nat)
    (h1 : p % PGSIZE = 0) (h2 : p < UINT32_MOD) :
    ensure_valid_range st p 0 esp = (true, st) := by
  have hd : pg_round_down p = p := pg_round_down_of_aligned p h1
  have hm : (p + 0) % UINT32_MOD = p := by simpa using Nat.mod_eq_of_lt h2
  show ensure_valid_range_loop p 0 esp st (pg_round_down p) 0 (0 + 3) = (true, st)
  rw [hd, show (0 + 3 : Nat) = 2 + 1 from rfl, evr_loop_succ, hm]
  simp

theorem evr_len_zero_misaligned (st : SysState) (q esp : Nat) (pte : GatePte)
    (h1 : q % PGSIZE ≠ 0) (h2 : PGSIZE ≤ q) (h3 : q < PHYS_BASE)
    (h4 : st.pages (pg_round_down q) = some pte) (h5 : pte.loadOk = true) :
    ensure_valid_range st q 0 esp =
      (true, { st with pinned := fun u =>
          if u = pg_round_down q then true else st.pinned u }) := by
  have hqp : q % PGSIZE < PGSIZE := Nat.mod_lt _ (by norm_num [PGSIZE])
  have hqm : q < UINT32_MOD := by
    have h6 := h3
    unfold PHYS_BASE at h6
    unfold UINT32_MOD
    omega
  have hm : (q + 0) % UINT32_MOD = q := by simpa using Nat.mod_eq_of_lt hqm
  have hlt : pg_round_down q < q := by
    unfold pg_round_down
    omega
  have hstop : ¬ pg_round_down q + PGSIZE < q := by
    unfold pg_round_down
    omega
  have hvp : ensure_valid_ptr st (pg_round_down q) esp =
      (true, { st with pinned := fun u =>
          if u = pg_round_down q then true else st.pinned u }) := by
    have hD0 : ¬ (pg_round_down q = 0 ∨ ¬ pg_round_down q < PHYS_BASE) := by
      unfold pg_round_down at *
      push_neg
      constructor
      · omega
      · omega
    have hidem : pg_round_down (pg_round_down q) = pg_round_down q :=
      pg_round_down_of_aligned _ (pg_round_down_aligned q)
    unfold ensure_valid_ptr
    rw [if_neg hD0]
    unfold supp_pt_grow_stack_if_necessary
    simp [hidem, h4, h5]
  show ensure_valid_range_loop q 0 esp st (pg_round_down q) 0 (0 + 3) = _
  rw [show (0 + 3 : Nat) = 2 + 1 from rfl, evr_loop_succ, hm, if_pos hlt, hvp]
  show ensure_valid_range_loop q 0 esp _ (pg_round_down q + PGSIZE) 1 (1 + 1) = _
  rw [evr_loop_succ, hm, if_neg hstop]

/-- Claim C10: `ensure_valid_range (p, 0)` always returns true; when `p` is
page-aligned the loop body never runs, so no page is validated or pinned
and the state is untouched — hence `READ`/`WRITE` with length 0 and a
page-aligned buffer succeed returning 0 for any supplementary page table,
including one where the buffer is completely unmapped — while for a
non-page-aligned `p` the single page containing `p` is still validated and
pinned. -/
theorem c10_zero_length_validation (st1 : SysState) (p esp1 : Nat)
    (stq : SysState) (q espq : Nat) (pteq : GatePte)
    (st3 : SysState) (fdt : Nat → Option File) (fd b esp3 : Nat) (file : File)
    (hp1 : p % PGSIZE = 0) (hp2 : p < UINT32_MOD)
    (hq1 : q % PGSIZE ≠ 0) (hq2 : PGSIZE ≤ q) (hq3 : q < PHYS_BASE)
    (hq4 : stq.pages (pg_round_down q) = some pteq) (hq5 : pteq.loadOk = true)
    (hb1 : b % PGSIZE = 0) (hb2 : b < UINT32_MOD)
    (hfd1 : fd ≠ STDIN_FILENO) (hfd2 : fd ≠ STDOUT_FILENO)
    (hfd3 : fdt fd = some file) :
    ensure_valid_range st1 p 0 esp1 = (true, st1)
    ∧ (∃ st2, ensure_valid_range stq q 0 espq = (true, st2)
        ∧ st2.pinned (pg_round_down q) = true
        ∧ ∀ u, u ≠ pg_round_down q → st2.pinned u = stq.pinned u)
    ∧ sys_read st3 fdt fd b 0 esp3 = .returned 0 st3 [.lockAcquire, .lockRelease]
    ∧ sys_read st3 fdt STDIN_FILENO b 0 esp3 = .returned 0 st3 []
    ∧ sys_write st3 fdt STDOUT_FILENO b 0 esp3 = .returned 0 st3 [.putbuf 0]
    ∧ sys_write st3 fdt fd b 0 esp3 = .returned 0 st3 [.lockAcquire, .lockRelease] := by
  have hevr3 : ensure_valid_range st3 b 0 esp3 = (true, st3) :=
    evr_len_zero_aligned st3 b esp3 hb1 hb2
  have hio : ∀ f : File, file_io_loop f 0 0 (0 + 1) = (0, f, []) := fun _ => rfl
  have hup : ∀ st : SysState, unpin_range st b 0 = (true, st) := fun _ => rfl
  refine ⟨evr_len_zero_aligned st1 p esp1 hp1 hp2, ?_, ?_, ?_, ?_, ?_⟩
  · refine ⟨_, evr_len_zero_misaligned stq q espq pteq hq1 hq2 hq3 hq4 hq5, by simp, ?_⟩
    intro u hu
    simp [hu]
  · simp [sys_read, hfd1, hfd2, hevr3, hfd3, hio, hup]
  · simp [sys_read, hevr3, STDIN_FILENO, STDOUT_FILENO, hup, stdin_events]
  · simp [sys_write, hevr3, STDOUT_FILENO, hup]
  · simp [sys_write, hfd1, hfd2, hevr3, hfd3, hio, hup]

theorem c10_zero_length_validation_witness :
    (4096 % PGSIZE = 0 ∧ 4097 % PGSIZE ≠ 0 ∧
      (⟨fun u => if u = 4096 then some ⟨true⟩ else none, fun _ => false⟩ :
        SysState).pages (pg_round_down 4097) = some ⟨true⟩)
    ∧ (ensure_valid_range ⟨fun _ => none, fun _ => false⟩ 4096 0 3221225000 =
        (true, ⟨fun _ => none, fun _ => false⟩)
      ∧ (∃ st2, ensure_valid_range
            ⟨fun u => if u = 4096 then some ⟨true⟩ else none, fun _ => false⟩
            4097 0 3221225000 = (true, st2)
          ∧ st2.pinned (pg_round_down 4097) = true
          ∧ ∀ u, u ≠ pg_round_down 4097 →
              st2.pinned u =
                (⟨fun u2 => if u2 = 4096 then some ⟨true⟩ else none, fun _ => false⟩ :
                  SysState).pinned u)
      ∧ sys_read ⟨fun _ => none, fun _ => false⟩ (fun _ => some ⟨100, 20⟩) 3 8192 0
          3221225000 = .returned 0 ⟨fun _ => none, fun _ => false⟩
          [.lockAcquire, .lockRelease]
      ∧ sys_read ⟨fun _ => none, fun _ => false⟩ (fun _ => some ⟨100, 20⟩)
          STDIN_FILENO 8192 0 3221225000 =
          .returned 0 ⟨fun _ => none, fun _ => false⟩ []
      ∧ sys_write ⟨fun _ => none, fun _ => false⟩ (fun _ => some ⟨100, 20⟩)
          STDOUT_FILENO 8192 0 3221225000 =
          .returned 0 ⟨fun _ => none, fun _ => false⟩ [.putbuf 0]
      ∧ sys_write ⟨fun _ => none, fun _ => false⟩ (fun _ => some ⟨100, 20⟩) 3 8192 0
          3221225000 = .returned 0 ⟨fun _ => none, fun _ => false⟩
          [.lockAcquire, .lockRelease]) :=
  ⟨⟨by decide, by decide, by decide⟩,
    c10_zero_length_validation ⟨fun _ => none, fun _ => false⟩ 4096 3221225000
      ⟨fun u => if u = 4096 then some ⟨true⟩ else none, fun _ => false⟩ 4097 3221225000
      ⟨true⟩ ⟨fun _ => none, fun _ => false⟩ (fun _ => some ⟨100, 20⟩) 3 8192 3221225000
      ⟨100, 20⟩ (by decide) (by decide) (by decide) (by decide) (by decide)
      (by decide) (by decide) (by decide) (by decide) (by decide) (by decide) rfl⟩

theorem sys_mmap_loop_succ (spt : SPT) (mapid curr lengthRem i rem : Nat) :
    sys_mmap_loop spt mapid curr lengthRem i (rem + 1) =
      match supp_pt_page_alloc_file spt curr (i * PGSIZE)
          (if PGSIZE < lengthRem then PGSIZE else lengthRem) mapid true with
      | none => .error (mmap_rollback spt curr i)
      | some spt2 =>
        sys_mmap_loop spt2 mapid ((curr + PGSIZE) % UINT32_MOD)
          (lengthRem - (if PGSIZE < lengthRem then PGSIZE else lengthRem))
          (i + 1) rem := rfl

theorem mmap_rollback_succ (spt : SPT) (curr i : Nat) :
    mmap_rollback spt curr (i + 1) =
      mmap_rollback
        (supp_pt_page_free spt ((curr + UINT32_MOD - PGSIZE) % UINT32_MOD))
        ((curr + UINT32_MOD - PGSIZE) % UINT32_MOD) i := rfl

theorem mmap_find_index_succ (addr u j rem : Nat) :
    mmap_find_index addr u j (rem + 1) =
      if mmap_key addr j = u then some j
      else mmap_find_index addr u (j + 1) rem := rfl

theorem mmap_key_zero (addr : Nat) (h : addr < UINT32_MOD) :
    mmap_key addr 0 = addr := by
  unfold mmap_key
  simpa using Nat.mod_eq_of_lt h

theorem mmap_key_succ (addr j : Nat) :
    mmap_key addr (j + 1) = (mmap_key addr j + PGSIZE) % UINT32_MOD := by
  unfold mmap_key
  rw [Nat.mod_add_mod]
  congr 1
  ring

theorem mmap_key_pred (addr j : Nat) :
    (mmap_key addr (j + 1) + UINT32_MOD - PGSIZE) % UINT32_MOD = mmap_key addr j := by
  unfold mmap_key
  have h1 : (addr + (j + 1) * PGSIZE) % UINT32_MOD + UINT32_MOD - PGSIZE
      = (addr + (j + 1) * PGSIZE) % UINT32_MOD + (UINT32_MOD - PGSIZE) := by
    unfold UINT32_MOD PGSIZE
    omega
  rw [h1, Nat.mod_add_mod]
  rw [show addr + (j + 1) * PGSIZE + (UINT32_MOD - PGSIZE)
      = addr + j * PGSIZE + UINT32_MOD by
    unfold UINT32_MOD PGSIZE
    omega]
  rw [Nat.add_mod_right]

theorem mmap_key_inj (addr np : Nat) (hnp : np * PGSIZE ≤ UINT32_MOD)
    {i j : Nat} (hij : i < j) (hj : j < np) :
    mmap_key addr i ≠ mmap_key addr j := by
  intro he
  have hme : Nat.ModEq UINT32_MOD (i * PGSIZE) (j * PGSIZE) :=
    Nat.ModEq.add_left_cancel' addr he
  have hle : i * PGSIZE ≤ j * PGSIZE :=
    Nat.mul_le_mul_right _ (Nat.le_of_lt hij)
  have hdvd := (Nat.modEq_iff_dvd' hle).mp hme
  have hpos : 0 < j * PGSIZE - i * PGSIZE := by
    unfold PGSIZE at *
    omega
  have hlt : j * PGSIZE - i * PGSIZE < UINT32_MOD := by
    unfold PGSIZE UINT32_MOD at *
    omega
  exact absurd (Nat.le_of_dvd hpos hdvd) (by omega)

theorem mmap_find_index_some (addr u : Nat) :
    ∀ rem j j2, mmap_find_index addr u j rem = some j2 →
      j ≤ j2 ∧ j2 < j + rem ∧ mmap_key addr j2 = u
  | 0, j, j2, h => by simp [mmap_find_index] at h
  | rem + 1, j, j2, h => by
    rw [mmap_find_index_succ] at h
    by_cases hk : mmap_key addr j = u
    · rw [if_pos hk] at h
      injection h with h2
      subst h2
      exact ⟨Nat.le_refl _, by omega, hk⟩
    · rw [if_neg hk] at h
      obtain ⟨h1, h2, h3⟩ := mmap_find_index_some addr u rem (j + 1) j2 h
      exact ⟨by omega, by omega, h3⟩

theorem mmap_find_index_none (addr u : Nat) :
    ∀ rem j, mmap_find_index addr u j rem = none →
      ∀ j2, j ≤ j2 → j2 < j + rem → mmap_key addr j2 ≠ u
  | 0, j, _, j2, h1, h2 => by omega
  | rem + 1, j, h, j2, h1, h2 => by
    rw [mmap_find_index_succ] at h
    by_cases hk : mmap_key addr j = u
    · rw [if_pos hk] at h
      exact absurd h (by simp)
    · rw [if_neg hk] at h
      rcases Nat.eq_or_lt_of_le h1 with h3 | h3
      · subst h3
        exact hk
      · exact mmap_find_index_none addr u rem (j + 1) h j2 h3 (by omega)

theorem mmap_any_present_false (spt : SPT) (addr : Nat) :
    ∀ c, mmap_any_present spt addr c = false →
      ∀ j, j < c → spt (mmap_key addr j) = none
  | 0, _, j, hj => absurd hj (Nat.not_lt_zero j)
  | c + 1, h, j, hj => by
    have h2 : mmap_any_present spt addr c = false ∧
        (spt (mmap_key addr c)).isSome = false := by
      simpa [mmap_any_present] using h
    rcases Nat.lt_or_ge j c with h3 | h3
    · exact mmap_any_present_false spt addr c h2.1 j h3
    · have h4 : j = c := by omega
      subst h4
      cases ho : spt (mmap_key addr j) with
      | none => rfl
      | some v =>
        rw [ho] at h2
        simp at h2

theorem mmap_any_present_true (spt : SPT) (addr : Nat) :
    ∀ c, mmap_any_present spt addr c = true →
      ∃ j, j < c ∧ (spt (mmap_key addr j)).isSome = true ∧
        ∀ k, k < j → spt (mmap_key addr k) = none
  | 0, h => by simp [mmap_any_present] at h
  | c + 1, h => by
    cases hc : mmap_any_present spt addr c with
    | true =>
      obtain ⟨j, h1, h2, h3⟩ := mmap_any_present_true spt addr c hc
      exact ⟨j, by omega, h2, h3⟩
    | false =>
      have h2 : (spt (mmap_key addr c)).isSome = true := by
        have h3 : (mmap_any_present spt addr c || (spt (mmap_key addr c)).isSome) = true := h
        rw [hc] at h3
        simpa using h3
      exact ⟨c, by omega, h2, mmap_any_present_false spt addr c hc⟩

theorem mmap_bytes_eq (L i : Nat) (hL : 1 ≤ L) (hi : i < pg_range_num L) :
    (if PGSIZE < L - i * PGSIZE then PGSIZE else L - i * PGSIZE) =
      mmap_page_bytes L i := by
  unfold mmap_page_bytes pg_range_num PGSIZE at *
  split_ifs <;> omega

theorem mmap_lengthRem_step (L i : Nat) :
    L - i * PGSIZE - (if PGSIZE < L - i * PGSIZE then PGSIZE else L - i * PGSIZE)
      = L - (i + 1) * PGSIZE := by
  unfold PGSIZE
  split_ifs <;> omega

theorem mmap_rollback_spec (addr : Nat) :
    ∀ cnt j (spt : SPT), cnt ≤ j →
      (∀ k, j - cnt ≤ k → k < j →
        mmap_rollback spt (mmap_key addr j) cnt (mmap_key addr k) = none)
      ∧ (∀ u, (∀ k, j - cnt ≤ k → k < j → mmap_key addr k ≠ u) →
        mmap_rollback spt (mmap_key addr j) cnt u = spt u)
  | 0, j, spt, _ => by
    constructor
    · intro k h1 h2
      omega
    · intro u _
      rfl
  | cnt + 1, j, spt, hcj => by
    obtain ⟨j2, rfl⟩ : ∃ j2, j = j2 + 1 := ⟨j - 1, by omega⟩
    have hstep : mmap_rollback spt (mmap_key addr (j2 + 1)) (cnt + 1) =
        mmap_rollback (supp_pt_page_free spt (mmap_key addr j2))
          (mmap_key addr j2) cnt := by
      rw [mmap_rollback_succ, mmap_key_pred]
    have ih := mmap_rollback_spec addr cnt j2
      (supp_pt_page_free spt (mmap_key addr j2)) (by omega)
    constructor
    · intro k h1 h2
      rw [hstep]
      rcases Nat.lt_or_ge k j2 with h3 | h3
      · exact ih.1 k (by omega) h3
      · have h4 : k = j2 := by omega
        rw [h4]
        by_cases hc : ∃ k2, j2 - cnt ≤ k2 ∧ k2 < j2 ∧
            mmap_key addr k2 = mmap_key addr j2
        · obtain ⟨k2, hk1, hk2, hk3⟩ := hc
          have h5 := ih.1 k2 hk1 hk2
          rw [hk3] at h5
          exact h5
        · push_neg at hc
          rw [ih.2 (mmap_key addr j2) (fun k2 ha hb => hc k2 ha hb)]
          unfold supp_pt_page_free
          simp
    · intro u hu
      rw [hstep]
      rw [ih.2 u (fun k2 ha hb => hu k2 (by omega) (by omega))]
      unfold supp_pt_page_free
      rw [if_neg (fun he => hu j2 (by omega) (by omega) he.symm)]

theorem spt_insert_self (spt : SPT) (k : Nat) (d : MDesc) :
    spt_insert spt k d k = some d := by
  simp [spt_insert]

theorem spt_insert_other (spt : SPT) (k u : Nat) (d : MDesc) (h : u ≠ k) :
    spt_insert spt k d u = spt u := by
  simp [spt_insert, h]

theorem supp_pt_page_alloc_file_free (spt : SPT) (upage ofs bytes mapid : Nat)
    (h : spt upage = none) :
    supp_pt_page_alloc_file spt upage ofs bytes mapid true =
      some (spt_insert spt upage ⟨ofs, bytes, mapid, true⟩) := by
  unfold supp_pt_page_alloc_file spt_insert
  rw [h]

theorem supp_pt_page_alloc_file_used (spt : SPT) (upage ofs bytes mapid : Nat)
    (d : MDesc) (h : spt upage = some d) :
    supp_pt_page_alloc_file spt upage ofs bytes mapid true = none := by
  unfold supp_pt_page_alloc_file
  rw [h]

theorem sys_mmap_loop_ok (addr L : Nat) (hL : 1 ≤ L)
    (hM : pg_range_num L * PGSIZE ≤ UINT32_MOD) :
    ∀ rem i spt, i + rem = pg_range_num L →
      (∀ k, i ≤ k → k < pg_range_num L → spt (mmap_key addr k) = none) →
      ∃ sptF,
        sys_mmap_loop spt addr (mmap_key addr i) (L - i * PGSIZE) i rem = .ok sptF
        ∧ (∀ k, i ≤ k → k < pg_range_num L →
            sptF (mmap_key addr k) =
              some ⟨k * PGSIZE, mmap_page_bytes L k, addr, true⟩)
        ∧ (∀ u, (∀ k, i ≤ k → k < pg_range_num L → mmap_key addr k ≠ u) →
            sptF u = spt u)
  | 0, i, spt, hsum, _ => by
    refine ⟨spt, rfl, ?_, fun u _ => rfl⟩
    intro k h1 h2
    omega
  | rem + 1, i, spt, hsum, habs => by
    have hi : i < pg_range_num L := by omega
    have hb := mmap_bytes_eq L i hL hi
    have hstep : sys_mmap_loop spt addr (mmap_key addr i) (L - i * PGSIZE) i (rem + 1) =
        sys_mmap_loop
          (spt_insert spt (mmap_key addr i) ⟨i * PGSIZE, mmap_page_bytes L i, addr, true⟩)
          addr (mmap_key addr (i + 1)) (L - (i + 1) * PGSIZE) (i + 1) rem := by
      rw [sys_mmap_loop_succ,
        supp_pt_page_alloc_file_free spt _ _ _ _ (habs i (Nat.le_refl i) hi),
        mmap_lengthRem_step, hb, ← mmap_key_succ]
    have habs2 : ∀ k, i + 1 ≤ k → k < pg_range_num L →
        spt_insert spt (mmap_key addr i)
          ⟨i * PGSIZE, mmap_page_bytes L i, addr, true⟩ (mmap_key addr k) = none := by
      intro k h1 h2
      rw [spt_insert_other _ _ _ _
        (Ne.symm (mmap_key_inj addr (pg_range_num L) hM (by omega) h2))]
      exact habs k (by omega) h2
    obtain ⟨F, hF0, hF1, hF2⟩ := sys_mmap_loop_ok addr L hL hM rem (i + 1)
      (spt_insert spt (mmap_key addr i) ⟨i * PGSIZE, mmap_page_bytes L i, addr, true⟩)
      (by omega) habs2
    refine ⟨F, by rw [hstep]; exact hF0, ?_, ?_⟩
    · intro k h1 h2
      rcases Nat.eq_or_lt_of_le h1 with h3 | h3
      · have h4 : F (mmap_key addr i) =
            spt_insert spt (mmap_key addr i)
              ⟨i * PGSIZE, mmap_page_bytes L i, addr, true⟩ (mmap_key addr i) := by
          refine hF2 (mmap_key addr i) ?_
          intro k2 ha hb2
          exact Ne.symm (mmap_key_inj addr (pg_range_num L) hM (by omega) hb2)
        rw [← h3, h4, spt_insert_self]
      · exact hF1 k (by omega) h2
    · intro u hu
      rw [hF2 u (fun k2 ha hb2 => hu k2 (by omega) hb2),
        spt_insert_other _ _ _ _ (fun he => hu i (Nat.le_refl i) hi he.symm)]

theorem sys_mmap_loop_error (addr L : Nat)
    (hM : pg_range_num L * PGSIZE ≤ UINT32_MOD) :
    ∀ rem i spt lengthRem j0, i + rem = pg_range_num L →
      i ≤ j0 → j0 < pg_range_num L →
      (spt (mmap_key addr j0)).isSome = true →
      (∀ k, i ≤ k → k < j0 → spt (mmap_key addr k) = none) →
      ∃ R, sys_mmap_loop spt addr (mmap_key addr i) lengthRem i rem = .error R
        ∧ (∀ k, k < j0 → R (mmap_key addr k) = none)
        ∧ (∀ u, (∀ k, k < j0 → mmap_key addr k ≠ u) → R u = spt u)
  | 0, i, spt, lengthRem, j0, hsum, hij, hjnp, _, _ => by omega
  | rem + 1, i, spt, lengthRem, j0, hsum, hij, hjnp, hsome, hbelow => by
    rcases Nat.eq_or_lt_of_le hij with h3 | h3
    · subst h3
      obtain ⟨d, hd⟩ := Option.isSome_iff_exists.mp hsome
      refine ⟨mmap_rollback spt (mmap_key addr i) i, ?_, ?_, ?_⟩
      · rw [sys_mmap_loop_succ, supp_pt_page_alloc_file_used spt _ _ _ _ d hd]
      · intro k hk
        exact (mmap_rollback_spec addr i i spt (Nat.le_refl i)).1 k (by omega) hk
      · intro u hu
        exact (mmap_rollback_spec addr i i spt (Nat.le_refl i)).2 u
          (fun k ha hb => hu k hb)
    · have hi : i < pg_range_num L := by omega
      have hstep : ∀ lr2, sys_mmap_loop spt addr (mmap_key addr i) lr2 i (rem + 1) =
          sys_mmap_loop
            (spt_insert spt (mmap_key addr i)
              ⟨i * PGSIZE, (if PGSIZE < lr2 then PGSIZE else lr2), addr, true⟩)
            addr (mmap_key addr (i + 1))
            (lr2 - (if PGSIZE < lr2 then PGSIZE else lr2)) (i + 1) rem := by
        intro lr2
        rw [sys_mmap_loop_succ,
          supp_pt_page_alloc_file_free spt _ _ _ _ (hbelow i (Nat.le_refl i) h3),
          ← mmap_key_succ]
      have hne0 : mmap_key addr j0 ≠ mmap_key addr i :=
        Ne.symm (mmap_key_inj addr (pg_range_num L) hM h3 hjnp)
      obtain ⟨R, hR0, hR1, hR2⟩ := sys_mmap_loop_error addr L hM rem (i + 1)
        (spt_insert spt (mmap_key addr i)
          ⟨i * PGSIZE, (if PGSIZE < lengthRem then PGSIZE else lengthRem), addr, true⟩)
        (lengthRem - (if PGSIZE < lengthRem then PGSIZE else lengthRem)) j0
        (by omega) (by omega) hjnp
        (by rw [spt_insert_other _ _ _ _ hne0]; exact hsome)
        (by
          intro k h1 h2
          rw [spt_insert_other _ _ _ _
            (Ne.symm (mmap_key_inj addr (pg_range_num L) hM (by omega) (by omega)))]
          exact hbelow k (by omega) h2)
      refine ⟨R, ?_, hR1, ?_⟩
      · rw [hstep lengthRem]
        exact hR0
      · intro u hu
        rw [hR2 u hu,
          spt_insert_other _ _ _ _ (fun he => hu i (by omega) he.symm)]

/-- Claim C4 (amended): `sys_mmap` coincides with the claim-side
description `sys_mmap_spec`: `MAP_FAILED` with the table unchanged on
every precondition failure, where the `STACK_LIMIT` comparison is the
source's 32-bit computation `(uintptr_t) addr + num_pages * PGSIZE`;
`MAP_FAILED` with the reopened file closed and the table unchanged
(rollback) when some target page is already mapped; otherwise one
file-backed descriptor per page, the last page's `file_bytes` being the
file-length remainder, returning `addr` as the mapping id.  The
`file_length` bound is the positivity of the C `int` it is stored in. -/
theorem c4_sys_mmap_refines_spec (fd_file : Option Nat) (reopenOk : Bool)
    (spt : SPT) (addr : Nat)
    (hlen : ∀ L, fd_file = some L → L ≤ 2147483647) :
    sys_mmap fd_file reopenOk spt addr = sys_mmap_spec fd_file reopenOk spt addr := by
  cases fd_file with
  | none => rfl
  | some L =>
    have hL31 : L ≤ 2147483647 := hlen L rfl
    by_cases h0 : L = 0
    · simp [sys_mmap, sys_mmap_spec, h0]
    by_cases ha1 : addr = 0
    · simp [sys_mmap, sys_mmap_spec, h0, ha1]
    by_cases ha2 : addr % PGSIZE = 0
    case neg => simp [sys_mmap, sys_mmap_spec, h0, ha1, ha2]
    by_cases ha3 : PHYS_BASE ≤ addr
    · simp [sys_mmap, sys_mmap_spec, h0, ha1, ha2, ha3]
    by_cases hst : STACK_LIMIT < (addr + pg_range_num L * PGSIZE) % UINT32_MOD
    · simp [sys_mmap, sys_mmap_spec, h0, ha1, ha2, ha3, hst]
    by_cases hre : reopenOk = false
    · simp [sys_mmap, sys_mmap_spec, h0, ha1, ha2, ha3, hst, hre]
    have hnpM : pg_range_num L * PGSIZE ≤ UINT32_MOD := by
      unfold pg_range_num PGSIZE UINT32_MOD
      omega
    have haddrM : addr < UINT32_MOD := by
      unfold PHYS_BASE at ha3
      unfold UINT32_MOD
      omega
    have hkey0 : mmap_key addr 0 = addr := mmap_key_zero addr haddrM
    have hL1 : 1 ≤ L := by omega
    cases hp : mmap_any_present spt addr (pg_range_num L) with
    | true =>
      obtain ⟨j0, hj0, hsome, hbelow⟩ := mmap_any_present_true spt addr _ hp
      obtain ⟨R, hR0, hR1, hR2⟩ := sys_mmap_loop_error addr L hnpM
        (pg_range_num L) 0 spt L j0 (by omega) (by omega) hj0 hsome
        (fun k _ h2 => hbelow k h2)
      rw [hkey0] at hR0
      have hRspt : R = spt := by
        funext u
        by_cases hu : ∃ k, k < j0 ∧ mmap_key addr k = u
        · obtain ⟨k, hk1, hk2⟩ := hu
          rw [← hk2, hR1 k hk1, hbelow k hk1]
        · push_neg at hu
          exact hR2 u hu
      simp only [sys_mmap, sys_mmap_spec, h0, ha1, ha2, ha3, hst, hre, hp, hR0,
        if_false, ite_false, if_neg, hRspt]
      simp [h0, ha1, ha2, ha3, hst, hre]
    | false =>
      have hall := mmap_any_present_false spt addr _ hp
      obtain ⟨F, hF0, hF1, hF2⟩ := sys_mmap_loop_ok addr L hL1 hnpM
        (pg_range_num L) 0 spt (by omega) (fun k _ h2 => hall k h2)
      rw [hkey0] at hF0
      rw [show L - 0 * PGSIZE = L by simp] at hF0
      have hFeq : F = (fun u =>
          match mmap_find_index addr u 0 (pg_range_num L) with
          | some j => some ⟨j * PGSIZE, mmap_page_bytes L j, addr, true⟩
          | none => spt u) := by
        funext u
        show F u = match mmap_find_index addr u 0 (pg_range_num L) with
          | some j => some ⟨j * PGSIZE, mmap_page_bytes L j, addr, true⟩
          | none => spt u
        cases hfind : mmap_find_index addr u 0 (pg_range_num L) with
        | some j =>
          obtain ⟨hj1, hj2, hj3⟩ := mmap_find_index_some addr u _ _ _ hfind
          rw [← hj3]
          exact hF1 j hj1 (by omega)
        | none =>
          have hnone := mmap_find_index_none addr u _ _ hfind
          exact hF2 u (fun k h1 h2 => hnone k h1 (by omega))
      simp only [sys_mmap, sys_mmap_spec, h0, ha1, ha2, ha3, hst, hre, hp, hF0]
      simp [h0, ha1, ha2, ha3, hst, hre, hFeq]

/-- Claim C4, as stated, fails on the code at one precondition: with
`addr = 0xBFFFF000` (page-aligned, nonzero, in user space) and an open
file of length `2^30 + 1` (so 262145 pages), the exact sum
`addr + pg_range_num (length) * PGSIZE = 2^32` exceeds `STACK_LIMIT`, but
the source computes it in 32-bit arithmetic, where it wraps to `0`; the
check passes and `sys_mmap` returns success instead of `MAP_FAILED`. -/
theorem c4_stack_limit_check_wraps :
    STACK_LIMIT < 3221221376 + pg_range_num 1073741825 * PGSIZE
    ∧ (sys_mmap (some 1073741825) true (fun _ => none) 3221221376).isFailed = false := by
  constructor
  · decide
  · obtain ⟨F, hF0, _, _⟩ := sys_mmap_loop_ok 3221221376 1073741825 (by decide)
      (by decide) (pg_range_num 1073741825) 0
      (fun _ => none) (by omega) (fun k _ _ => rfl)
    rw [mmap_key_zero 3221221376 (by decide)] at hF0
    rw [show 1073741825 - 0 * PGSIZE = 1073741825 by simp] at hF0
    simp only [sys_mmap]
    rw [if_neg (by decide), if_neg (by decide), if_neg (by decide),
      if_neg (by decide), hF0]
    rfl

theorem c4_sys_mmap_refines_spec_witness :
    (∀ L, (some 5000 : Option Nat) = some L → L ≤ 2147483647)
    ∧ sys_mmap (some 5000) true (fun _ => none) 40960 =
        sys_mmap_spec (some 5000) true (fun _ => none) 40960 :=
  ⟨fun L h => by
      injection h with h2
      omega,
    c4_sys_mmap_refines_spec (some 5000) true (fun _ => none) 40960
      (fun L h => by
        injection h with h2
        omega)⟩

end Pintos
